import Mathlib

/-! gotcpchat: the registry, the command interpreter and the broadcast of the server.

A shallow embedding of `server/server.go`.

* A `*Client` is modelled by a natural number (its identity); the `lobby`
  field of every `Client` object lives in the map `Server.lobby`, so that a
  client keeps its `lobby` after it has been removed from `clients`.
* Texts are sequences of Unicode scalar values (`String`); the library
  functions of package `strings` are defined on the list of characters.
* What is written to a client's `enc` is appended to `Server.sent`.
* `time.Now()` reads the next value of `Server.clock`.
* Every handled message is one atomic step (goroutines interleave at the
  granularity of a message); the mutex is studied apart, on the sequence of
  accesses a handler performs (`Access`).
-/

namespace GoTcpChat

/-! ## Package `strings` -/

/-- Go `unicode.IsSpace`: the code points with the Unicode White_Space property. -/
def isSpace (c : Char) : Bool :=
  let n := c.toNat
  (0x09 ≤ n && n ≤ 0x0D) || n == 0x20 || n == 0x85 || n == 0xA0 || n == 0x1680 ||
  (0x2000 ≤ n && n ≤ 0x200A) || n == 0x2028 || n == 0x2029 || n == 0x202F ||
  n == 0x205F || n == 0x3000

/-- Go `unicode.ToLower`: ASCII is handled directly, every other rune goes through
the case table of package `unicode`, here the parameter `tbl`. -/
def toLowerRune (tbl : Char → Char) (r : Char) : Char :=
  if r.toNat ≤ 0x7F then
    (if 'A'.toNat ≤ r.toNat ∧ r.toNat ≤ 'Z'.toNat then Char.ofNat (r.toNat + 32) else r)
  else tbl r

/-- Go `strings.ToLower`. -/
def ToLower (tbl : Char → Char) (s : String) : String :=
  ⟨s.data.map (toLowerRune tbl)⟩

/-- Go `strings.TrimSpace`: leading and trailing white space removed. -/
def TrimSpace (s : String) : String :=
  ⟨((s.data.dropWhile isSpace).reverse.dropWhile isSpace).reverse⟩

/-- Go `strings.HasPrefix`. -/
def HasPrefix (s pre : String) : Bool :=
  pre.data.isPrefixOf s.data

/-- Go `strings.TrimPrefix`. -/
def TrimPrefix (s pre : String) : String :=
  if HasPrefix s pre then ⟨s.data.drop pre.data.length⟩ else s

/-- The pieces of a list of characters between the occurrences of `sep`. -/
def splitChars (sep : Char) : List Char → List (List Char)
  | [] => [[]]
  | c :: cs =>
    if c = sep then [] :: splitChars sep cs
    else match splitChars sep cs with
      | [] => [[c]]
      | w :: ws => (c :: w) :: ws

/-- Go `strings.Split(s, sep)` for a separator of one character. -/
def Split (s : String) (sep : Char) : List String :=
  (splitChars sep s.data).map String.mk

/-! ## Data model -/

/-- An instant, as returned by `time.Now()`. -/
abbrev Instant := Nat

/-- The identity of a `*Client`. -/
abbrev Handle := Nat

/-- The struct `Message`. -/
structure Message where
  Text : String
  Time : Instant
  IsNotification : Bool
deriving DecidableEq, Repr

/-- The package-level variables `clients` and `lobbies`, the `lobby` field of every
`Client` object, and the environment: what has been encoded to each client
(`sent`, oldest first), the allocator of `Client` objects (`next`) and the
future readings of `time.Now()` (`clock`). -/
structure Server where
  clients : List Handle
  lobbies : List String
  lobby : Handle → String
  next : Handle
  sent : List (Handle × Message)
  clock : Nat → Instant

/-- The state at start-up: no client, no lobby name, nothing sent. -/
def Server.init (clock : Nat → Instant) : Server :=
  { clients := [], lobbies := [], lobby := fun _ => "", next := 0, sent := [], clock := clock }

/-! ## The functions of `server.go` -/

/-- The function `sendServerNotification`: a `Message` with the text, the current time and
`IsNotification: true` is encoded to the client. -/
def sendServerNotification (s : Server) (client : Handle) (text : String) : Server :=
  { s with
    sent := s.sent ++ [(client, { Text := text, Time := s.clock 0, IsNotification := true })]
    clock := fun n => s.clock (n + 1) }

/-- The function `removeClient`: the first entry of `clients` equal to `client` is cut out. -/
def removeClient (s : Server) (client : Handle) : Server :=
  { s with clients := s.clients.erase client }

/-- The function `broadcastMsg`. -/
def broadcastMsg (s : Server) (sender : Handle) (message : Message) : Server :=
  s.clients.foldl
    (fun st c =>
      if c ≠ sender ∧ st.lobby c = st.lobby sender then
        { st with sent := st.sent ++ [(c, message)] }
      else st)
    s

/-- The loop `for _, c := range clients { if c.lobby == lobby { count++ } }`. -/
def countMembers (s : Server) (lobby : String) : Nat :=
  s.clients.foldl (fun count c => if s.lobby c = lobby then count + 1 else count) 0

/-- The loop `for _, element := range lobbies { if element == lobby { flag = true } }`. -/
def lobbyFlag (s : Server) (lobby : String) : Bool :=
  s.lobbies.foldl (fun flag element => if element = lobby then true else flag) false

/-- The argument of `/create` and `/join`:
`strings.ToLower(strings.TrimSpace(strings.TrimPrefix(message, command)))`. -/
def lobbyArg (tbl : Char → Char) (message command : String) : String :=
  ToLower tbl (TrimSpace (TrimPrefix message command))

/-- The text `fmt.Sprintf("You have created and joined the lobby '%s'.", lobby)`. -/
def createdText (lobby : String) : String :=
  "You have created and joined the lobby '" ++ lobby ++ "'."

/-- The text `fmt.Sprintf("You have joined the lobby '%s' with %d users.", lobby, count)`. -/
def joinedText (lobby : String) (count : Nat) : String :=
  "You have joined the lobby '" ++ lobby ++ "' with " ++ toString count ++ " users."

/-- The text `fmt.Sprintf("Someone has joined the lobby! (Now %d users in here)", n)`. -/
def someoneJoinedText (n : Nat) : String :=
  "Someone has joined the lobby! (Now " ++ toString n ++ " users in here)"

/-- The text `fmt.Sprintf("Someone has left the lobby! :( (Now %d users in here)", count)`. -/
def someoneLeftText (count : Nat) : String :=
  "Someone has left the lobby! :( (Now " ++ toString count ++ " users in here)"

/-- The text of `/help`. -/
def helpText : String :=
  "/help - to see this message\n/exit - disconnect from the server\n/create - create a new lobby\n/join - join an existing lobby\n/disconnect - leave current lobby\n/list - get the list of existing lobbies"

/-- The branch `case "/exit"`. -/
def cmdExit (s : Server) (client : Handle) : Server :=
  removeClient (sendServerNotification s client "You have left the server. Rerun to rejoin.") client

/-- The branch `case "/create"`. -/
def cmdCreate (tbl : Char → Char) (s : Server) (client : Handle) (message : String) : Server :=
  let lobby := lobbyArg tbl message "/create"
  if lobby = "" then
    sendServerNotification s client "Please specify a lobby name."
  else if s.lobbies.any (fun element => element = lobby) then
    sendServerNotification s client
      "Lobby with this name already exists. Try another name or join it."
  else
    sendServerNotification
      { s with lobbies := s.lobbies ++ [lobby], lobby := Function.update s.lobby client lobby }
      client (createdText lobby)

/-- The branch `case "/join"`. -/
def cmdJoin (tbl : Char → Char) (s : Server) (client : Handle) (message : String) : Server :=
  let lobby := lobbyArg tbl message "/join"
  if lobby = "" then
    sendServerNotification s client "Please specify a lobby name."
  else
    let flag := lobbyFlag s lobby
    let count := countMembers s lobby
    if !flag then
      sendServerNotification s client "Lobby is not found. Try another or create new."
    else
      let s1 := { s with lobby := Function.update s.lobby client lobby }
      let s2 := sendServerNotification s1 client (joinedText lobby count)
      let s3 := sendServerNotification s2 client "Ready to chat."
      s3.clients.foldl
        (fun st c =>
          if c ≠ client ∧ st.lobby c = st.lobby client then
            sendServerNotification st c (someoneJoinedText (count + 1))
          else st)
        s3

/-- The branch `case "/disconnect"`. -/
def cmdDisconnect (s : Server) (client : Handle) : Server :=
  let lobby := s.lobby client
  if s.lobby client = "" then
    sendServerNotification s client "You have not joined any lobbies yet."
  else
    let s1 := { s with lobby := Function.update s.lobby client "" }
    let s2 := sendServerNotification s1 client "You have disconnected from the lobby."
    let count := countMembers s2 lobby
    s2.clients.foldl
      (fun st c =>
        if c ≠ client ∧ st.lobby c = lobby then
          sendServerNotification st c (someoneLeftText count)
        else st)
      s2

/-- The branch `case "/list"`. -/
def cmdList (s : Server) (client : Handle) : Server :=
  let lobbyusers :=
    s.lobbies.map (fun lobby => lobby ++ " (" ++ toString (countMembers s lobby) ++ " users)")
  sendServerNotification s client ("Available lobbies:\n" ++ ", ".intercalate lobbyusers)

/-- The first token of a message, `strings.Split(message, " ")[0]`. -/
def commandOf (message : String) : String := (Split message ' ').headD ""

/-- The function `handleCommand`: the switch on `strings.Split(message, " ")[0]`. -/
def handleCommand (tbl : Char → Char) (s : Server) (client : Handle) (message : String) :
    Server :=
  let command := commandOf message
  if command = "/exit" then cmdExit s client
  else if command = "/create" then cmdCreate tbl s client message
  else if command = "/join" then cmdJoin tbl s client message
  else if command = "/disconnect" then cmdDisconnect s client
  else if command = "/help" then sendServerNotification s client helpText
  else if command = "/list" then cmdList s client
  else s

/-- The body of the loop of `handleClient`, for one decoded message. -/
def handleMessage (tbl : Char → Char) (s : Server) (client : Handle) (msg : Message) : Server :=
  if HasPrefix msg.Text "/" then handleCommand tbl s client msg.Text
  else if s.lobby client = "" then
    sendServerNotification s client
      "You have not joined to any lobbies. Try /list to get lobby list."
  else broadcastMsg s client msg

/-- The loop of `handleClient` over the messages decoded from the connection, up to the
first decode error. -/
def handleClient (tbl : Char → Char) (s : Server) (client : Handle) (msgs : List Message) :
    Server :=
  msgs.foldl (fun st msg => handleMessage tbl st client msg) s

/-- The body of the accept loop of `main`: a new `Client` (its `lobby` is the zero value)
is appended to `clients`. -/
def register (s : Server) : Server :=
  { s with
    clients := s.clients ++ [s.next]
    lobby := Function.update s.lobby s.next ""
    next := s.next + 1 }

/-- What the server can do: accept a connection, or handle a message decoded by the reader
loop of a client that has been accepted. -/
inductive Reachable (tbl : Char → Char) : Server → Prop
  | start (clock : Nat → Instant) : Reachable tbl (Server.init clock)
  | accept {s : Server} : Reachable tbl s → Reachable tbl (register s)
  | handle {s : Server} (client : Handle) (msg : Message) :
      Reachable tbl s → client < s.next → Reachable tbl (handleMessage tbl s client msg)

/-- The recipient and the text of everything sent, oldest first. -/
def Server.texts (s : Server) : List (Handle × String) :=
  s.sent.map (fun d => (d.1, d.2.Text))

/-! ## The accesses a handler performs

The same functions once more, this time as the sequence of what they do to the mutex, to
the variables `clients` and `lobbies`, to the `lobby` fields and to the encoders, in program
order. -/

/-- One access: `mutex.Lock()`, `mutex.Unlock()`, a read or a write of `clients` or of
`lobbies`, a read or a write of the `lobby` field of a client, an `Encode` to a client. -/
inductive Access where
  | lock
  | unlock
  | readClients
  | writeClients
  | readLobbies
  | writeLobbies
  | readLobby (c : Handle)
  | writeLobby (c : Handle)
  | encode (c : Handle)
deriving DecidableEq, Repr

/-- The accesses of `removeClient`: lock, the range over `clients`, the `append` when the
client is found, and the deferred unlock. -/
def removeClientAccesses (s : Server) (client : Handle) : List Access :=
  [Access.lock, Access.readClients] ++
    (if client ∈ s.clients then [Access.readClients, Access.writeClients] else []) ++
    [Access.unlock]

/-- The accesses of a loop `for _, c := range clients` whose body is
`if c != client && c.lobby == client.lobby { Encode to c }`. -/
def sameLobbyLoopAccesses (s : Server) (client : Handle) : List Access :=
  Access.readClients ::
    (s.clients.map (fun c =>
      if c = client then []
      else [Access.readLobby c, Access.readLobby client] ++
        (if s.lobby c = s.lobby client then [Access.encode c] else []))).flatten

/-- The accesses of the loop of `/disconnect`, whose body is
`if c != client && c.lobby == lobby { Encode to c }` for the local variable `lobby`. -/
def oldLobbyLoopAccesses (s : Server) (client : Handle) (lobby : String) : List Access :=
  Access.readClients ::
    (s.clients.map (fun c =>
      if c = client then []
      else Access.readLobby c :: (if s.lobby c = lobby then [Access.encode c] else []))).flatten

/-- The accesses of the loop `for _, c := range clients { if c.lobby == lobby { count++ } }`. -/
def countAccesses (s : Server) : List Access :=
  Access.readClients :: s.clients.map Access.readLobby

/-- The accesses of `broadcastMsg`. -/
def broadcastMsgAccesses (s : Server) (sender : Handle) : List Access :=
  [Access.lock] ++ sameLobbyLoopAccesses s sender ++ [Access.unlock]

/-- The accesses of `handleCommand`, branch by branch. -/
def handleCommandAccesses (tbl : Char → Char) (s : Server) (client : Handle)
    (message : String) : List Access :=
  let command := commandOf message
  if command = "/exit" then
    [Access.encode client] ++ removeClientAccesses s client
  else if command = "/create" then
    let lobby := lobbyArg tbl message "/create"
    if lobby = "" then [Access.encode client]
    else if s.lobbies.any (fun element => element = lobby) then
      [Access.readLobbies, Access.encode client]
    else
      [Access.readLobbies, Access.readLobbies, Access.writeLobbies, Access.writeLobby client,
        Access.encode client]
  else if command = "/join" then
    let lobby := lobbyArg tbl message "/join"
    if lobby = "" then [Access.encode client]
    else
      [Access.readLobbies] ++ countAccesses s ++
        (if !lobbyFlag s lobby then [Access.encode client]
         else
          [Access.writeLobby client, Access.encode client, Access.encode client, Access.lock] ++
            sameLobbyLoopAccesses { s with lobby := Function.update s.lobby client lobby } client
            ++ [Access.unlock])
  else if command = "/disconnect" then
    [Access.readLobby client, Access.readLobby client] ++
      (if s.lobby client = "" then [Access.encode client]
       else
        [Access.writeLobby client, Access.encode client] ++ countAccesses s ++ [Access.lock] ++
          oldLobbyLoopAccesses { s with lobby := Function.update s.lobby client "" } client
            (s.lobby client)
          ++ [Access.unlock])
  else if command = "/help" then [Access.encode client]
  else if command = "/list" then
    Access.readLobbies :: (s.lobbies.map (fun _ => countAccesses s)).flatten ++
      [Access.encode client]
  else []

/-- The discipline of the mutex on a sequence of accesses, `held` telling whether the
mutex is held before it: `Lock` only when it is free, `Unlock` only when it is held, and
`clients` and `lobbies` read and written only while it is held. -/
def lockDiscipline : Bool → List Access → Bool
  | _, [] => true
  | held, Access.lock :: rest => !held && lockDiscipline true rest
  | held, Access.unlock :: rest => held && lockDiscipline false rest
  | held, Access.readClients :: rest => held && lockDiscipline held rest
  | held, Access.writeClients :: rest => held && lockDiscipline held rest
  | held, Access.readLobbies :: rest => held && lockDiscipline held rest
  | held, Access.writeLobbies :: rest => held && lockDiscipline held rest
  | held, Access.readLobby _ :: rest => lockDiscipline held rest
  | held, Access.writeLobby _ :: rest => lockDiscipline held rest
  | held, Access.encode _ :: rest => lockDiscipline held rest

/-- The messages `sendServerNotification` encodes for a list of (recipient, text), sent one
after the other: each carries `IsNotification: true` and the next reading of the clock. -/
def stamped (clock : Nat → Instant) : List (Handle × String) → List (Handle × Message)
  | [] => []
  | (c, text) :: rest =>
    (c, { Text := text, Time := clock 0, IsNotification := true }) ::
      stamped (fun n => clock (n + 1)) rest

/-- From `s` to `s'` the notifications `L` were sent, in this order, and nothing else
happened. -/
def Notified (s s' : Server) (L : List (Handle × String)) : Prop :=
  s'.sent = s.sent ++ stamped s.clock L ∧ s'.clock = (fun n => s.clock (n + L.length)) ∧
  s'.clients = s.clients ∧ s'.lobbies = s.lobbies ∧ s'.lobby = s.lobby ∧ s'.next = s.next

/-- What holds of the registry in every state the server reaches: a client is listed once,
listed clients were allocated, a lobby name is listed once and is not empty, and the
`lobby` of every client is empty or a listed name. -/
def Inv (s : Server) : Prop :=
  s.clients.Nodup ∧ (∀ c ∈ s.clients, c < s.next) ∧ s.lobbies.Nodup ∧ "" ∉ s.lobbies ∧
  ∀ c, s.lobby c ≠ "" → s.lobby c ∈ s.lobbies

/-- The four ways one handled message of client `c` can change the registry: not at all, by
removing `c` from `clients`, by a new lobby name that becomes the `lobby` of `c`, or by
setting the `lobby` of `c` to empty or to a listed name. -/
def Effect (c : Handle) (s s' : Server) : Prop :=
  s'.next = s.next ∧
  ((s'.clients = s.clients ∧ s'.lobbies = s.lobbies ∧ s'.lobby = s.lobby) ∨
   (s'.clients = s.clients.erase c ∧ s'.lobbies = s.lobbies ∧ s'.lobby = s.lobby) ∨
   (∃ L, L ≠ "" ∧ L ∉ s.lobbies ∧ s'.clients = s.clients ∧ s'.lobbies = s.lobbies ++ [L] ∧
      s'.lobby = Function.update s.lobby c L) ∨
   (∃ L, (L = "" ∨ L ∈ s.lobbies) ∧ s'.clients = s.clients ∧ s'.lobbies = s.lobbies ∧
      s'.lobby = Function.update s.lobby c L))

/-- The messages sent to client `c` on the way from `s` to `s'`, oldest first. -/
def sentTo (s s' : Server) (c : Handle) : List Message :=
  ((s'.sent.drop s.sent.length).filter (fun d => d.1 = c)).map (fun d => d.2)

/-- Two accepted clients, `0` and `1`, neither in a lobby. -/
def twoClients (clock : Nat → Instant) : Server := register (register (Server.init clock))

/-- The state after client `0`, of two accepted clients, sent `/create red`. -/
def redCreated (tbl : Char → Char) (clock : Nat → Instant) : Server :=
  handleMessage tbl (twoClients clock) 0
    { Text := "/create red", Time := 5, IsNotification := false }

/-- The state after client `0` sent `/create red` and client `1` sent `/join red`. -/
def redLobby (tbl : Char → Char) (clock : Nat → Instant) : Server :=
  handleMessage tbl (redCreated tbl clock) 1
    { Text := "/join red", Time := 6, IsNotification := false }

/-- From `s` to `s'` exactly one message was sent, the notification `text` to `h`, and
`clients`, `lobbies` and every `lobby` are as before. -/
def OnlyNotified (s s' : Server) (h : Handle) (text : String) : Prop :=
  s'.sent = s.sent ++ [(h, { Text := text, Time := s.clock 0, IsNotification := true })] ∧
  s'.clients = s.clients ∧ s'.lobbies = s.lobbies ∧ s'.lobby = s.lobby

/-! ## Lemmas on notifications -/

theorem stamped_append (L M : List (Handle × String)) (clock : Nat → Instant) :
    stamped clock (L ++ M) = stamped clock L ++ stamped (fun n => clock (n + L.length)) M := by
  induction L generalizing clock with
  | nil => rfl
  | cons x L ih =>
    obtain ⟨c, t⟩ := x
    show stamped clock ((c, t) :: (L ++ M)) = _
    simp only [stamped, ih, List.length_cons, List.cons_append]
    rfl

theorem notified_refl (s : Server) : Notified s s [] := by
  simp [Notified, stamped]

theorem notified_send (s : Server) (c : Handle) (t : String) :
    Notified s (sendServerNotification s c t) [(c, t)] := by
  simp [Notified, stamped, sendServerNotification]

theorem notified_trans {s s1 s2 : Server} {L M : List (Handle × String)}
    (h1 : Notified s s1 L) (h2 : Notified s1 s2 M) : Notified s s2 (L ++ M) := by
  obtain ⟨a1, a2, a3, a4, a5, a6⟩ := h1
  obtain ⟨b1, b2, b3, b4, b5, b6⟩ := h2
  refine ⟨?_, ?_, by rw [b3, a3], by rw [b4, a4], by rw [b5, a5], by rw [b6, a6]⟩
  · rw [b1, a1, a2, stamped_append, List.append_assoc]
  · rw [b2, a2]
    funext n
    simp only [List.length_append]
    congr 1
    omega

/-- A loop over `l` that notifies the clients selected by a test on the `lobby` fields. -/
theorem notified_fold (p : (Handle → String) → Handle → Prop) [∀ f c, Decidable (p f c)]
    (text : String) (l : List Handle) (s : Server) :
    Notified s
      (l.foldl (fun st c => if p st.lobby c then sendServerNotification st c text else st) s)
      ((l.filter (fun c => p s.lobby c)).map (fun c => (c, text))) := by
  induction l generalizing s with
  | nil => exact notified_refl s
  | cons c l ih =>
    simp only [List.foldl_cons]
    by_cases hp : p s.lobby c
    · have h1 := notified_send s c text
      have h2 := ih (sendServerNotification s c text)
      have hl : (sendServerNotification s c text).lobby = s.lobby := rfl
      rw [hl] at h2
      have h3 := notified_trans h1 h2
      simpa [hp, List.filter_cons] using h3
    · simpa [hp, List.filter_cons] using ih s

theorem countMembers_eq (s : Server) (lobby : String) :
    countMembers s lobby = s.clients.countP (fun c => s.lobby c = lobby) := by
  unfold countMembers
  suffices h : ∀ (l : List Handle) (k : Nat),
      l.foldl (fun count c => if s.lobby c = lobby then count + 1 else count) k =
        k + l.countP (fun c => s.lobby c = lobby) by
    simpa using h s.clients 0
  intro l
  induction l with
  | nil => intro k; simp
  | cons c l ih =>
    intro k
    by_cases hc : s.lobby c = lobby
    · simp [List.foldl_cons, hc, ih, List.countP_cons]; omega
    · simp [List.foldl_cons, hc, ih, List.countP_cons]

theorem lobbyFlag_eq (s : Server) (lobby : String) :
    lobbyFlag s lobby = decide (lobby ∈ s.lobbies) := by
  unfold lobbyFlag
  suffices h : ∀ (l : List String) (b : Bool),
      l.foldl (fun flag element => if element = lobby then true else flag) b =
        (b || decide (lobby ∈ l)) by
    simpa using h s.lobbies false
  intro l
  induction l with
  | nil => intro b; simp
  | cons e l ih =>
    intro b
    by_cases he : e = lobby
    · rw [List.foldl_cons, if_pos he, ih]
      simp [he]
    · have he2 : ¬ lobby = e := fun h => he h.symm
      rw [List.foldl_cons, if_neg he, ih]
      simp [he2]

/-! ## The branches of `handleCommand` -/

theorem cmdCreate_empty (tbl : Char → Char) (s : Server) (client : Handle) (message : String)
    (h : lobbyArg tbl message "/create" = "") :
    Notified s (cmdCreate tbl s client message) [(client, "Please specify a lobby name.")] := by
  simp only [cmdCreate, h, if_true]
  exact notified_send _ _ _

theorem cmdCreate_exists (tbl : Char → Char) (s : Server) (client : Handle) (message : String)
    (h : lobbyArg tbl message "/create" ≠ "")
    (hex : lobbyArg tbl message "/create" ∈ s.lobbies) :
    Notified s (cmdCreate tbl s client message)
      [(client, "Lobby with this name already exists. Try another name or join it.")] := by
  have hany : (s.lobbies.any fun element => decide (element = lobbyArg tbl message "/create"))
      = true := by
    simp [List.any_eq_true, hex]
  simp only [cmdCreate, if_neg h, hany, if_true]
  exact notified_send _ _ _

theorem cmdCreate_new (tbl : Char → Char) (s : Server) (client : Handle) (message : String)
    (h : lobbyArg tbl message "/create" ≠ "")
    (hex : lobbyArg tbl message "/create" ∉ s.lobbies) :
    Notified
      { s with
        lobbies := s.lobbies ++ [lobbyArg tbl message "/create"]
        lobby := Function.update s.lobby client (lobbyArg tbl message "/create") }
      (cmdCreate tbl s client message)
      [(client, createdText (lobbyArg tbl message "/create"))] := by
  have hany : (s.lobbies.any fun element => decide (element = lobbyArg tbl message "/create"))
      = false := by
    simp [List.any_eq_false, hex]
    intro x hx hxe
    exact hex (hxe ▸ hx)
  simp only [cmdCreate, if_neg h, hany]
  exact notified_send _ _ _

theorem cmdJoin_empty (tbl : Char → Char) (s : Server) (client : Handle) (message : String)
    (h : lobbyArg tbl message "/join" = "") :
    Notified s (cmdJoin tbl s client message) [(client, "Please specify a lobby name.")] := by
  simp only [cmdJoin, h, if_true]
  exact notified_send _ _ _

theorem cmdJoin_missing (tbl : Char → Char) (s : Server) (client : Handle) (message : String)
    (h : lobbyArg tbl message "/join" ≠ "")
    (hex : lobbyArg tbl message "/join" ∉ s.lobbies) :
    Notified s (cmdJoin tbl s client message)
      [(client, "Lobby is not found. Try another or create new.")] := by
  simp only [cmdJoin, if_neg h, lobbyFlag_eq, hex, decide_False, Bool.not_false, if_true]
  exact notified_send _ _ _

theorem cmdJoin_found (tbl : Char → Char) (s : Server) (client : Handle) (message : String)
    (h : lobbyArg tbl message "/join" ≠ "")
    (hex : lobbyArg tbl message "/join" ∈ s.lobbies) :
    Notified
      { s with lobby := Function.update s.lobby client (lobbyArg tbl message "/join") }
      (cmdJoin tbl s client message)
      ([(client, joinedText (lobbyArg tbl message "/join")
            (s.clients.countP (fun c => s.lobby c = lobbyArg tbl message "/join"))),
        (client, "Ready to chat.")] ++
       (s.clients.filter (fun c => c ≠ client ∧
          Function.update s.lobby client (lobbyArg tbl message "/join") c =
            lobbyArg tbl message "/join")).map
        (fun c => (c, someoneJoinedText
          (s.clients.countP (fun c => s.lobby c = lobbyArg tbl message "/join") + 1)))) := by
  unfold cmdJoin
  simp only [if_neg h, lobbyFlag_eq, hex, decide_True, Bool.not_true, countMembers_eq,
    Bool.false_eq_true, if_false]
  generalize lobbyArg tbl message "/join" = L
  generalize hs1 : ({ s with lobby := Function.update s.lobby client L } : Server) = s1
  have hk : s1.clients = s.clients := by rw [← hs1]
  have hl : s1.lobby = Function.update s.lobby client L := by rw [← hs1]
  generalize (s.clients.countP fun c => s.lobby c = L) = k
  have h2 := notified_send s1 client (joinedText L k)
  have h3 := notified_send (sendServerNotification s1 client (joinedText L k)) client
    "Ready to chat."
  have h4 := notified_fold (fun f c => c ≠ client ∧ f c = f client) (someoneJoinedText (k + 1))
    s1.clients (sendServerNotification (sendServerNotification s1 client (joinedText L k)) client
    "Ready to chat.")
  have h5 := notified_trans (notified_trans h2 h3) h4
  have hf : (sendServerNotification (sendServerNotification s1 client (joinedText L k)) client
    "Ready to chat.").lobby = Function.update s.lobby client L := hl
  simp only [hf, Function.update_same] at h5
  rw [hk] at h5
  have hc : (sendServerNotification (sendServerNotification s1 client (joinedText L k)) client
    "Ready to chat.").clients = s.clients := hk
  rw [hc]
  exact h5

theorem cmdDisconnect_none (s : Server) (client : Handle) (h : s.lobby client = "") :
    Notified s (cmdDisconnect s client) [(client, "You have not joined any lobbies yet.")] := by
  simp only [cmdDisconnect, h, if_true]
  exact notified_send _ _ _

theorem cmdDisconnect_leave (s : Server) (client : Handle) (h : s.lobby client ≠ "") :
    Notified
      { s with lobby := Function.update s.lobby client "" }
      (cmdDisconnect s client)
      ((client, "You have disconnected from the lobby.") ::
       (s.clients.filter (fun c => c ≠ client ∧
          Function.update s.lobby client "" c = s.lobby client)).map
        (fun c => (c, someoneLeftText
          (s.clients.countP
            (fun c => Function.update s.lobby client "" c = s.lobby client))))) := by
  unfold cmdDisconnect
  simp only [if_neg h, countMembers_eq]
  generalize hL : s.lobby client = L
  generalize hs1 : ({ s with lobby := Function.update s.lobby client "" } : Server) = s1
  have hk : s1.clients = s.clients := by rw [← hs1]
  have hl : s1.lobby = Function.update s.lobby client "" := by rw [← hs1]
  have hc : (sendServerNotification s1 client "You have disconnected from the lobby.").clients
      = s.clients := hk
  have hf : (sendServerNotification s1 client "You have disconnected from the lobby.").lobby
      = Function.update s.lobby client "" := hl
  rw [hc, hf]
  generalize (s.clients.countP fun c => Function.update s.lobby client "" c = L) = k
  have h2 := notified_send s1 client "You have disconnected from the lobby."
  have h4 := notified_fold (fun f c => c ≠ client ∧ f c = L) (someoneLeftText k)
    s.clients (sendServerNotification s1 client "You have disconnected from the lobby.")
  have h5 := notified_trans h2 h4
  simp only [hf] at h5
  exact h5

theorem cmdList_notified (s : Server) (client : Handle) :
    ∃ text, Notified s (cmdList s client) [(client, text)] :=
  ⟨_, notified_send _ _ _⟩

theorem cmdExit_sent (s : Server) (client : Handle) :
    (cmdExit s client).sent =
      s.sent ++ stamped s.clock [(client, "You have left the server. Rerun to rejoin.")] := by
  simp [cmdExit, removeClient, sendServerNotification, stamped]

theorem broadcastMsg_fold (sender : Handle) (message : Message) (l : List Handle) (s : Server) :
    let s' := l.foldl
      (fun st c =>
        if c ≠ sender ∧ st.lobby c = st.lobby sender then
          { st with sent := st.sent ++ [(c, message)] }
        else st) s
    s'.sent = s.sent ++
        (l.filter (fun c => c ≠ sender ∧ s.lobby c = s.lobby sender)).map
          (fun c => (c, message)) ∧
      s'.clients = s.clients ∧ s'.lobbies = s.lobbies ∧ s'.lobby = s.lobby ∧
      s'.next = s.next ∧ s'.clock = s.clock := by
  induction l generalizing s with
  | nil => simp
  | cons c l ih =>
    by_cases hp : c ≠ sender ∧ s.lobby c = s.lobby sender
    · have h := ih { s with sent := s.sent ++ [(c, message)] }
      simp only [List.foldl_cons, if_pos hp]
      simpa [List.filter_cons, hp] using h
    · have h := ih s
      simp only [List.foldl_cons, if_neg hp]
      simpa [List.filter_cons, hp] using h

/-! ## The dispatch -/

theorem handleCommand_exit (tbl : Char → Char) (s : Server) (client : Handle)
    (message : String) (h : commandOf message = "/exit") :
    handleCommand tbl s client message = cmdExit s client := by
  simp [handleCommand, h]

theorem handleCommand_create (tbl : Char → Char) (s : Server) (client : Handle)
    (message : String) (h : commandOf message = "/create") :
    handleCommand tbl s client message = cmdCreate tbl s client message := by
  simp [handleCommand, h]

theorem handleCommand_join (tbl : Char → Char) (s : Server) (client : Handle)
    (message : String) (h : commandOf message = "/join") :
    handleCommand tbl s client message = cmdJoin tbl s client message := by
  simp [handleCommand, h]

theorem handleCommand_disconnect (tbl : Char → Char) (s : Server) (client : Handle)
    (message : String) (h : commandOf message = "/disconnect") :
    handleCommand tbl s client message = cmdDisconnect s client := by
  simp [handleCommand, h]

/-! ## The invariant -/

theorem effect_of_notified {s s' : Server} {L : List (Handle × String)} (c : Handle)
    (h : Notified s s' L) : Effect c s s' :=
  ⟨h.2.2.2.2.2, Or.inl ⟨h.2.2.1, h.2.2.2.1, h.2.2.2.2.1⟩⟩

theorem handleCommand_effect (tbl : Char → Char) (s : Server) (client : Handle)
    (message : String) : Effect client s (handleCommand tbl s client message) := by
  unfold handleCommand
  simp only []
  split_ifs with h1 h2 h3 h4 h5 h6
  · exact ⟨rfl, Or.inr (Or.inl ⟨rfl, rfl, rfl⟩)⟩
  · by_cases he : lobbyArg tbl message "/create" = ""
    · exact effect_of_notified _ (cmdCreate_empty tbl s client message he)
    · by_cases hex : lobbyArg tbl message "/create" ∈ s.lobbies
      · exact effect_of_notified _ (cmdCreate_exists tbl s client message he hex)
      · have h := cmdCreate_new tbl s client message he hex
        exact ⟨h.2.2.2.2.2, Or.inr (Or.inr (Or.inl
          ⟨_, he, hex, h.2.2.1, h.2.2.2.1, h.2.2.2.2.1⟩))⟩
  · by_cases he : lobbyArg tbl message "/join" = ""
    · exact effect_of_notified _ (cmdJoin_empty tbl s client message he)
    · by_cases hex : lobbyArg tbl message "/join" ∈ s.lobbies
      · have h := cmdJoin_found tbl s client message he hex
        exact ⟨h.2.2.2.2.2, Or.inr (Or.inr (Or.inr
          ⟨_, Or.inr hex, h.2.2.1, h.2.2.2.1, h.2.2.2.2.1⟩))⟩
      · exact effect_of_notified _ (cmdJoin_missing tbl s client message he hex)
  · by_cases he : s.lobby client = ""
    · exact effect_of_notified _ (cmdDisconnect_none s client he)
    · have h := cmdDisconnect_leave s client he
      exact ⟨h.2.2.2.2.2, Or.inr (Or.inr (Or.inr
        ⟨_, Or.inl rfl, h.2.2.1, h.2.2.2.1, h.2.2.2.2.1⟩))⟩
  · exact effect_of_notified _ (notified_send _ _ _)
  · exact effect_of_notified _ (notified_send _ _ _)
  · exact ⟨rfl, Or.inl ⟨rfl, rfl, rfl⟩⟩

theorem handleMessage_effect (tbl : Char → Char) (s : Server) (client : Handle)
    (msg : Message) : Effect client s (handleMessage tbl s client msg) := by
  unfold handleMessage
  split_ifs with h1 h2
  · exact handleCommand_effect tbl s client msg.Text
  · exact effect_of_notified _ (notified_send _ _ _)
  · have h := broadcastMsg_fold client msg s.clients s
    exact ⟨h.2.2.2.2.1, Or.inl ⟨h.2.1, h.2.2.1, h.2.2.2.1⟩⟩

theorem inv_init (clock : Nat → Instant) : Inv (Server.init clock) := by
  simp [Inv, Server.init]

theorem inv_register {s : Server} (h : Inv s) : Inv (register s) := by
  obtain ⟨h1, h2, h3, h4, h5⟩ := h
  refine ⟨?_, ?_, h3, h4, ?_⟩
  · show (s.clients ++ [s.next]).Nodup
    rw [List.nodup_append]
    refine ⟨h1, List.nodup_singleton _, ?_⟩
    intro a ha hb
    have hlt : a < s.next := h2 a ha
    have hb2 : a = s.next := by simpa using hb
    rw [hb2] at hlt
    exact Nat.lt_irrefl _ hlt
  · intro c hc
    have hc2 : c ∈ s.clients ++ [s.next] := hc
    show c < s.next + 1
    rcases List.mem_append.1 hc2 with hc3 | hc3
    · exact Nat.lt_succ_of_lt (h2 c hc3)
    · have hc4 : c = s.next := by simpa using hc3
      rw [hc4]
      exact Nat.lt_succ_self _
  · intro c hc
    have hc2 : Function.update s.lobby s.next "" c ≠ "" := hc
    show Function.update s.lobby s.next "" c ∈ s.lobbies
    by_cases hcn : c = s.next
    · subst hcn; simp at hc2
    · rw [Function.update_noteq hcn] at hc2 ⊢
      exact h5 c hc2

theorem inv_effect {c : Handle} {s s' : Server} (h : Inv s) (he : Effect c s s') :
    Inv s' := by
  obtain ⟨h1, h2, h3, h4, h5⟩ := h
  obtain ⟨hn, he⟩ := he
  rcases he with ⟨e1, e2, e3⟩ | ⟨e1, e2, e3⟩ | ⟨L, hL, hLn, e1, e2, e3⟩ |
    ⟨L, hL, e1, e2, e3⟩
  · exact ⟨e1 ▸ h1, by rw [e1, hn]; exact h2, e2 ▸ h3, e2 ▸ h4, by rw [e2, e3]; exact h5⟩
  · refine ⟨e1 ▸ h1.erase c, ?_, e2 ▸ h3, e2 ▸ h4, by rw [e2, e3]; exact h5⟩
    rw [e1, hn]
    intro a ha
    exact h2 a (List.mem_of_mem_erase ha)
  · refine ⟨e1 ▸ h1, by rw [e1, hn]; exact h2, ?_, ?_, ?_⟩
    · rw [e2, List.nodup_append]
      refine ⟨h3, List.nodup_singleton _, ?_⟩
      intro a ha hb
      simp at hb
      exact hLn (hb ▸ ha)
    · rw [e2]
      intro hm
      rcases List.mem_append.1 hm with hm | hm
      · exact h4 hm
      · simp at hm; exact hL hm.symm
    · intro a ha
      rw [e2, e3] at *
      by_cases hac : a = c
      · subst hac; simp
      · rw [Function.update_noteq hac] at ha ⊢
        exact List.mem_append_left _ (h5 a ha)
  · refine ⟨e1 ▸ h1, by rw [e1, hn]; exact h2, e2 ▸ h3, e2 ▸ h4, ?_⟩
    intro a ha
    rw [e2, e3] at *
    by_cases hac : a = c
    · subst hac
      simp only [Function.update_same] at ha ⊢
      rcases hL with hL | hL
      · exact absurd hL ha
      · exact hL
    · rw [Function.update_noteq hac] at ha ⊢
      exact h5 a ha

/-- A message of a client that is not in `clients` leaves `clients` as it is: cutting the
client out a second time does nothing. -/
theorem clients_after_removal (tbl : Char → Char) (s : Server) (client : Handle)
    (msg : Message) (h : client ∉ s.clients) :
    (handleMessage tbl s client msg).clients = s.clients ∧ removeClient s client = s := by
  have hr : s.clients.erase client = s.clients := List.erase_of_not_mem h
  refine ⟨?_, ?_⟩
  · rcases (handleMessage_effect tbl s client msg).2 with e | e | ⟨L, _, _, e, _⟩ |
      ⟨L, _, e, _⟩
    · exact e.1
    · rw [e.1, hr]
    · exact e
    · exact e
  · unfold removeClient
    rw [hr]

theorem inv_of_reachable {tbl : Char → Char} {s : Server} (h : Reachable tbl s) : Inv s := by
  induction h with
  | start clock => exact inv_init clock
  | accept _ ih => exact inv_register ih
  | handle client msg _ _ ih => exact inv_effect ih (handleMessage_effect tbl _ client msg)

/-! ## Parsing `/create n` and `/join n` -/

theorem splitChars_head (sep : Char) (l : List Char) :
    ∃ ws, splitChars sep l = l.takeWhile (fun c => c ≠ sep) :: ws := by
  induction l with
  | nil => exact ⟨[], rfl⟩
  | cons c l ih =>
    obtain ⟨ws, hws⟩ := ih
    by_cases hc : c = sep
    · exact ⟨splitChars sep l, by simp [splitChars, hc]⟩
    · exact ⟨ws, by simp [splitChars, hc, hws]⟩

theorem commandOf_eq (message : String) :
    commandOf message = ⟨message.data.takeWhile (fun c => c ≠ ' ')⟩ := by
  obtain ⟨ws, hws⟩ := splitChars_head ' ' message.data
  simp [commandOf, Split, hws]

theorem commandOf_create (n : String) : commandOf ("/create " ++ n) = "/create" := by
  rw [commandOf_eq]
  simp [String.data_append, List.takeWhile]

theorem commandOf_join (n : String) : commandOf ("/join " ++ n) = "/join" := by
  rw [commandOf_eq]
  simp [String.data_append, List.takeWhile]

theorem TrimSpace_space (n : String) : TrimSpace (" " ++ n) = TrimSpace n := by
  have h : isSpace ' ' = true := by decide
  simp [TrimSpace, String.data_append, List.dropWhile, h]

theorem lobbyArg_create (tbl : Char → Char) (n : String) :
    lobbyArg tbl ("/create " ++ n) "/create" = ToLower tbl (TrimSpace n) := by
  have h : TrimPrefix ("/create " ++ n) "/create" = " " ++ n := by
    simp [TrimPrefix, HasPrefix, String.data_append, List.isPrefixOf]
    rfl
  rw [lobbyArg, h, TrimSpace_space]

theorem lobbyArg_join (tbl : Char → Char) (n : String) :
    lobbyArg tbl ("/join " ++ n) "/join" = ToLower tbl (TrimSpace n) := by
  have h : TrimPrefix ("/join " ++ n) "/join" = " " ++ n := by
    simp [TrimPrefix, HasPrefix, String.data_append, List.isPrefixOf]
    rfl
  rw [lobbyArg, h, TrimSpace_space]

/-! ## Broadcast -/

theorem filter_recipient_nodup {α : Type} (f : Handle → α) (p : Handle → Bool)
    (l : List Handle) (hl : l.Nodup) (c : Handle) :
    (((l.filter p).map (fun x => (x, f x))).filter (fun d => d.1 = c)).map (fun d => d.2) =
      if c ∈ l ∧ p c = true then [f c] else [] := by
  induction l with
  | nil => simp
  | cons x l ih =>
    have hx : x ∉ l := (List.nodup_cons.1 hl).1
    have ih2 := ih (List.nodup_cons.1 hl).2
    by_cases hxc : x = c
    · subst hxc
      have hn : ¬ (x ∈ l ∧ p x = true) := fun h => hx h.1
      rw [if_neg hn] at ih2
      by_cases hp : p x = true
      · simp [List.filter_cons, hp, ih2]
      · simp [List.filter_cons, hp, ih2]
    · have hcx : ¬ c = x := fun h => hxc h.symm
      by_cases hp : p x = true
      · simp [List.filter_cons, hp, ih2, hxc, hcx]
      · simp [List.filter_cons, hp, ih2, hxc, hcx]

/-- C1: `broadcastMsg` encodes the message, as it is, to the clients of `clients` other
than the sender whose `lobby` is the sender's, in the order of `clients`, and to nobody
else; `clients`, `lobbies` and every `lobby` stay as they were. When every client is listed
once, each of these recipients gets the message exactly once and every other handle gets
nothing. -/
theorem broadcastMsg_delivers (s : Server) (sender : Handle) (message : Message) :
    (broadcastMsg s sender message).sent =
        s.sent ++ (s.clients.filter (fun c => c ≠ sender ∧ s.lobby c = s.lobby sender)).map
          (fun c => (c, message)) ∧
      (s.clients.Nodup → ∀ c,
        sentTo s (broadcastMsg s sender message) c =
          if c ∈ s.clients ∧ c ≠ sender ∧ s.lobby c = s.lobby sender then [message] else []) ∧
      (broadcastMsg s sender message).clients = s.clients ∧
      (broadcastMsg s sender message).lobbies = s.lobbies ∧
      (broadcastMsg s sender message).lobby = s.lobby := by
  have h := broadcastMsg_fold sender message s.clients s
  refine ⟨h.1, ?_, h.2.1, h.2.2.1, h.2.2.2.1⟩
  intro hnd c
  have h1 : (broadcastMsg s sender message).sent = _ := h.1
  unfold sentTo
  rw [h1, List.drop_left]
  have h2 := filter_recipient_nodup (fun _ => message)
    (fun c => decide (c ≠ sender ∧ s.lobby c = s.lobby sender)) s.clients hnd c
  simpa using h2

theorem broadcastMsg_delivers_witness :
    (redLobby id (fun n => n)).clients.Nodup ∧
      sentTo (redLobby id (fun n => n))
        (broadcastMsg (redLobby id (fun n => n)) 0 ⟨"hello", 9, false⟩) 1 =
          [⟨"hello", 9, false⟩] :=
  ⟨by decide, by
    have h := (broadcastMsg_delivers (redLobby id (fun n => n)) 0 ⟨"hello", 9, false⟩).2.1
      (by decide) 1
    rw [h]
    decide⟩

/-! ## Join -/

theorem stamped_filter_texts (c : Handle) (L : List (Handle × String))
    (clock : Nat → Instant) :
    (((stamped clock L).filter (fun d => d.1 = c)).map (fun d => d.2)).map Message.Text =
      (L.filter (fun d => d.1 = c)).map (fun d => d.2) := by
  induction L generalizing clock with
  | nil => rfl
  | cons x L ih =>
    obtain ⟨a, t⟩ := x
    by_cases hac : a = c
    · simp [stamped, List.filter_cons, hac, ih]
    · simp [stamped, List.filter_cons, hac, ih]

theorem sentTo_texts {s s0 s' : Server} {L : List (Handle × String)} (h : Notified s0 s' L)
    (hs : s0.sent = s.sent) (c : Handle) :
    (sentTo s s' c).map Message.Text = (L.filter (fun d => d.1 = c)).map (fun d => d.2) := by
  unfold sentTo
  rw [h.1, hs, List.drop_left, stamped_filter_texts]

theorem countP_update_joined (f : Handle → String) (h : Handle) (L : String)
    (l : List Handle) (hl : l.Nodup) (hh : h ∈ l) (hf : f h ≠ L) :
    l.countP (fun c => Function.update f h L c = L) = l.countP (fun c => f c = L) + 1 := by
  have hout : ∀ (m : List Handle), h ∉ m →
      m.countP (fun c => Function.update f h L c = L) = m.countP (fun c => f c = L) := by
    intro m hm
    apply List.countP_congr
    intro c hc
    have hch : c ≠ h := fun e => hm (e ▸ hc)
    simp [Function.update_noteq hch]
  induction l with
  | nil => simp at hh
  | cons x l ih =>
    have hx : x ∉ l := (List.nodup_cons.1 hl).1
    by_cases hxh : x = h
    · subst hxh
      rw [List.countP_cons, List.countP_cons, hout l hx]
      simp [hf]
    · have hh2 : h ∈ l := by
        rcases List.mem_cons.1 hh with e | e
        · exact absurd e.symm hxh
        · exact e
      rw [List.countP_cons, List.countP_cons, ih (List.nodup_cons.1 hl).2 hh2]
      simp [Function.update_noteq hxh]
      omega

theorem redLobby_reachable (tbl : Char → Char) (clock : Nat → Instant) :
    Reachable tbl (redLobby tbl clock) :=
  Reachable.handle 1 _
    (Reachable.handle 0 _ (Reachable.accept (Reachable.accept (Reachable.start clock)))
      (show (0 : Nat) < 2 from by decide))
    (Nat.lt_of_lt_of_eq (show (1 : Nat) < 2 from by decide)
      (handleMessage_effect tbl (twoClients clock) 0 _).1.symm)

/-- What `/join n` does in a reachable state when the normalized name is a lobby name: the
announcement carries the count taken before the join, plus 1. -/
theorem cmdJoin_announces (tbl : Char → Char) (s : Server) (h : Handle) (n : String)
    (hr : Reachable tbl s) (hex : ToLower tbl (TrimSpace n) ∈ s.lobbies) :
    (handleCommand tbl s h ("/join " ++ n)).lobby =
        Function.update s.lobby h (ToLower tbl (TrimSpace n)) ∧
      (handleCommand tbl s h ("/join " ++ n)).sent = s.sent ++ stamped s.clock
        ([(h, joinedText (ToLower tbl (TrimSpace n))
              (s.clients.countP (fun c => s.lobby c = ToLower tbl (TrimSpace n)))),
          (h, "Ready to chat.")] ++
         (s.clients.filter (fun c => c ≠ h ∧
            (handleCommand tbl s h ("/join " ++ n)).lobby c = ToLower tbl (TrimSpace n))).map
          (fun c => (c, someoneJoinedText
            (s.clients.countP (fun c => s.lobby c = ToLower tbl (TrimSpace n)) + 1)))) ∧
      (∀ c, c ≠ h →
        (sentTo s (handleCommand tbl s h ("/join " ++ n)) c).map Message.Text =
          if c ∈ s.clients ∧
              (handleCommand tbl s h ("/join " ++ n)).lobby c = ToLower tbl (TrimSpace n) then
            [someoneJoinedText
              (s.clients.countP (fun c => s.lobby c = ToLower tbl (TrimSpace n)) + 1)]
          else []) ∧
      (h ∈ s.clients → s.lobby h ≠ ToLower tbl (TrimSpace n) →
        (handleCommand tbl s h ("/join " ++ n)).clients.countP
            (fun c => (handleCommand tbl s h ("/join " ++ n)).lobby c =
              ToLower tbl (TrimSpace n)) =
          s.clients.countP (fun c => s.lobby c = ToLower tbl (TrimSpace n)) + 1) := by
  have hinv := inv_of_reachable hr
  have hne : ToLower tbl (TrimSpace n) ≠ "" := fun e => hinv.2.2.2.1 (e ▸ hex)
  rw [handleCommand_join tbl s h _ (commandOf_join n)]
  rw [← lobbyArg_join tbl n] at hex hne ⊢
  have hN := cmdJoin_found tbl s h _ hne hex
  generalize lobbyArg tbl ("/join " ++ n) "/join" = L at *
  generalize cmdJoin tbl s h ("/join " ++ n) = s' at *
  obtain ⟨n1, n2, n3, n4, n5, n6⟩ := id hN
  have n5' : s'.lobby = Function.update s.lobby h L := n5
  have n3' : s'.clients = s.clients := n3
  refine ⟨n5', ?_, ?_, ?_⟩
  · rw [n5']
    exact n1
  · intro c hc
    rw [@sentTo_texts s _ _ _ hN rfl c, n5']
    have hch : ¬ h = c := fun e => hc e.symm
    have h2 := filter_recipient_nodup
      (fun _ => someoneJoinedText (s.clients.countP (fun c => s.lobby c = L) + 1))
      (fun c => decide (c ≠ h ∧ Function.update s.lobby h L c = L)) s.clients hinv.1 c
    simp only [decide_eq_true_eq] at h2
    simp only [List.filter_append, List.map_append, List.filter_cons, hch, decide_False,
      List.filter_nil, List.map_nil, List.nil_append, Bool.false_eq_true, if_false]
    simp only [List.filter_map, List.map_map] at h2 ⊢
    rw [show ((fun d : Handle × String => d.2) ∘ fun c => (c,
        someoneJoinedText (s.clients.countP (fun c => s.lobby c = L) + 1))) =
        ((fun d : Handle × String => d.2) ∘ fun x => (x,
        someoneJoinedText (s.clients.countP (fun c => s.lobby c = L) + 1))) from rfl]
    simp only [hc, ne_eq, not_false_eq_true, true_and] at h2 ⊢
    exact h2
  · intro hh hl
    rw [n3', n5']
    exact countP_update_joined s.lobby h L s.clients hinv.1 hh hl

/-- The first join: when a listed client `h` whose `lobby` is not yet the normalized name of
`/join n` sends `/join n` in a reachable state and that name is a lobby name, the count
announced to the other members is the number of listed clients in the lobby after the
join. -/
theorem cmdJoin_first_join (tbl : Char → Char) (s : Server) (h : Handle) (n : String)
    (hr : Reachable tbl s) (hex : ToLower tbl (TrimSpace n) ∈ s.lobbies)
    (hh : h ∈ s.clients) (hl : s.lobby h ≠ ToLower tbl (TrimSpace n)) :
    (handleCommand tbl s h ("/join " ++ n)).lobby =
        Function.update s.lobby h (ToLower tbl (TrimSpace n)) ∧
      (handleCommand tbl s h ("/join " ++ n)).sent = s.sent ++ stamped s.clock
        ([(h, joinedText (ToLower tbl (TrimSpace n))
              (s.clients.countP (fun c => s.lobby c = ToLower tbl (TrimSpace n)))),
          (h, "Ready to chat.")] ++
         (s.clients.filter (fun c => c ≠ h ∧
            (handleCommand tbl s h ("/join " ++ n)).lobby c = ToLower tbl (TrimSpace n))).map
          (fun c => (c, someoneJoinedText
            ((handleCommand tbl s h ("/join " ++ n)).clients.countP
              (fun c => (handleCommand tbl s h ("/join " ++ n)).lobby c =
                ToLower tbl (TrimSpace n)))))) ∧
      (∀ c, c ≠ h →
        (sentTo s (handleCommand tbl s h ("/join " ++ n)) c).map Message.Text =
          if c ∈ s.clients ∧
              (handleCommand tbl s h ("/join " ++ n)).lobby c = ToLower tbl (TrimSpace n) then
            [someoneJoinedText
              ((handleCommand tbl s h ("/join " ++ n)).clients.countP
                (fun c => (handleCommand tbl s h ("/join " ++ n)).lobby c =
                  ToLower tbl (TrimSpace n)))]
          else []) ∧
      (handleCommand tbl s h ("/join " ++ n)).clients.countP
          (fun c => (handleCommand tbl s h ("/join " ++ n)).lobby c =
            ToLower tbl (TrimSpace n)) =
        s.clients.countP (fun c => s.lobby c = ToLower tbl (TrimSpace n)) + 1 := by
  obtain ⟨h1, h2, h3, h4⟩ := cmdJoin_announces tbl s h n hr hex
  have hpost := h4 hh hl
  rw [hpost]
  exact ⟨h1, h2, h3, rfl⟩

/-- C2 fails on the code: clients `0` and `1` are both in `red` (`0` created it, `1` joined
it) and `0` sends `/join red` again. The state is reachable and `red` is a lobby name. Client
`0` is told `with 2 users`, the number of members before the join, as the claim says; client
`1` is told `Now 3 users in here`, while the number of listed clients whose `lobby` is `red`
after the join is 2, as before it, and not 3. -/
theorem rejoin_announces_wrong_count :
    Reachable id (redLobby id id) ∧
      ToLower id (TrimSpace "red") = "red" ∧ "red" ∈ (redLobby id id).lobbies ∧
      (redLobby id id).clients = [0, 1] ∧
      (redLobby id id).lobby 0 = "red" ∧ (redLobby id id).lobby 1 = "red" ∧
      (sentTo (redLobby id id) (handleCommand id (redLobby id id) 0 "/join red") 0).map
          Message.Text = ["You have joined the lobby 'red' with 2 users.", "Ready to chat."] ∧
      (sentTo (redLobby id id) (handleCommand id (redLobby id id) 0 "/join red") 1).map
          Message.Text = ["Someone has joined the lobby! (Now 3 users in here)"] ∧
      (handleCommand id (redLobby id id) 0 "/join red").clients = [0, 1] ∧
      (handleCommand id (redLobby id id) 0 "/join red").clients.countP
          (fun c => (handleCommand id (redLobby id id) 0 "/join red").lobby c = "red") = 2 ∧
      (redLobby id id).clients.countP (fun c => (redLobby id id).lobby c = "red") = 2 :=
  ⟨redLobby_reachable id id, by decide, by decide, by decide, by decide, by decide, by decide,
    by decide, by decide, by decide, by decide⟩

/-! ## The scenario of two clients -/

/-- C3, as the code has it: two clients are accepted, `0` sends `/create red` and `1` sends
`/join red`. Client `0` is told it created and joined `red`, client `1` is told it joined
`red` with 1 users and `Ready to chat.`, client `0` gets the announcement with count 2, both
have the lobby `red`, and a chat message of either one is then sent to the other one and
to nobody else. -/
theorem scenario_create_join (tbl : Char → Char) (clock : Nat → Instant) :
    (redLobby tbl clock).sent = stamped clock
        [(0, createdText "red"), (1, joinedText "red" 1), (1, "Ready to chat."),
         (0, someoneJoinedText 2)] ∧
      (redLobby tbl clock).lobby 0 = "red" ∧ (redLobby tbl clock).lobby 1 = "red" ∧
      (redLobby tbl clock).clients = [0, 1] ∧ (redLobby tbl clock).lobbies = ["red"] ∧
      (∀ msg : Message, HasPrefix msg.Text "/" = false →
        (handleMessage tbl (redLobby tbl clock) 0 msg).sent =
            (redLobby tbl clock).sent ++ [(1, msg)] ∧
          (handleMessage tbl (redLobby tbl clock) 1 msg).sent =
            (redLobby tbl clock).sent ++ [(0, msg)]) := by
  refine ⟨rfl, rfl, rfl, rfl, rfl, ?_⟩
  intro msg hmsg
  constructor
  · simp only [handleMessage, hmsg]
    rfl
  · simp only [handleMessage, hmsg]
    rfl

theorem scenario_create_join_witness :
    HasPrefix "hello" "/" = false ∧
      (handleMessage id (redLobby id id) 0 ⟨"hello", 9, false⟩).sent =
        (redLobby id id).sent ++ [(1, ⟨"hello", 9, false⟩)] ∧
      (handleMessage id (redLobby id id) 1 ⟨"hello", 9, false⟩).sent =
        (redLobby id id).sent ++ [(0, ⟨"hello", 9, false⟩)] :=
  ⟨by decide, (scenario_create_join id id).2.2.2.2.2 ⟨"hello", 9, false⟩ (by decide)⟩

/-- C3 as it is written fails: in the scenario client `1` is told `with 1 users`, not 0,
and client `0` gets the announcement `Now 2 users`, not 1. -/
theorem scenario_create_join_counterexample :
    (redLobby id id).texts =
        [(0, "You have created and joined the lobby 'red'."),
         (1, "You have joined the lobby 'red' with 1 users."),
         (1, "Ready to chat."),
         (0, "Someone has joined the lobby! (Now 2 users in here)")] ∧
      (1, joinedText "red" 0) ∉ (redLobby id id).texts ∧
      (0, someoneJoinedText 1) ∉ (redLobby id id).texts :=
  ⟨by decide, by decide, by decide⟩

/-! ## Create -/

/-- C4: in a reachable state, after `/create n` from `a` and then `/create n` from `b`, with
`n` not empty once trimmed and lowercased, `lobbies` holds the normalized name exactly once;
the second call sends one notification, the already-exists text to `b`, and leaves `lobbies`,
every `lobby` and `clients` as the first call left them. -/
theorem create_twice (tbl : Char → Char) (s : Server) (a b : Handle) (n : String)
    (hr : Reachable tbl s) (hn : ToLower tbl (TrimSpace n) ≠ "") :
    (handleCommand tbl (handleCommand tbl s a ("/create " ++ n)) b ("/create " ++ n)).lobbies.count
        (ToLower tbl (TrimSpace n)) = 1 ∧
      (handleCommand tbl (handleCommand tbl s a ("/create " ++ n)) b ("/create " ++ n)).sent =
        (handleCommand tbl s a ("/create " ++ n)).sent ++
          stamped (handleCommand tbl s a ("/create " ++ n)).clock
            [(b, "Lobby with this name already exists. Try another name or join it.")] ∧
      (handleCommand tbl (handleCommand tbl s a ("/create " ++ n)) b ("/create " ++ n)).lobbies =
        (handleCommand tbl s a ("/create " ++ n)).lobbies ∧
      (handleCommand tbl (handleCommand tbl s a ("/create " ++ n)) b ("/create " ++ n)).lobby =
        (handleCommand tbl s a ("/create " ++ n)).lobby ∧
      (handleCommand tbl (handleCommand tbl s a ("/create " ++ n)) b ("/create " ++ n)).clients =
        (handleCommand tbl s a ("/create " ++ n)).clients := by
  have hinv1 : Inv (handleCommand tbl s a ("/create " ++ n)) :=
    inv_effect (inv_of_reachable hr) (handleCommand_effect tbl s a _)
  have hmem : ToLower tbl (TrimSpace n) ∈ (handleCommand tbl s a ("/create " ++ n)).lobbies := by
    rw [handleCommand_create tbl s a _ (commandOf_create n)]
    rw [← lobbyArg_create tbl n] at hn ⊢
    by_cases hex : lobbyArg tbl ("/create " ++ n) "/create" ∈ s.lobbies
    · rw [(cmdCreate_exists tbl s a _ hn hex).2.2.2.1]
      exact hex
    · rw [(cmdCreate_new tbl s a _ hn hex).2.2.2.1]
      exact List.mem_append_right _ (List.mem_singleton_self _)
  generalize handleCommand tbl s a ("/create " ++ n) = s1 at *
  rw [handleCommand_create tbl s1 b _ (commandOf_create n)]
  rw [← lobbyArg_create tbl n] at hn hmem ⊢
  have h2 := cmdCreate_exists tbl s1 b _ hn hmem
  refine ⟨?_, h2.1, h2.2.2.2.1, h2.2.2.2.2.1, h2.2.2.1⟩
  rw [h2.2.2.2.1]
  exact List.count_eq_one_of_mem hinv1.2.2.1 hmem

theorem create_twice_witness :
    Reachable id (redLobby id id) ∧ ToLower id (TrimSpace " Blue ") ≠ "" ∧
      (handleCommand id (handleCommand id (redLobby id id) 0 ("/create " ++ " Blue ")) 1
        ("/create " ++ " Blue ")).lobbies.count (ToLower id (TrimSpace " Blue ")) = 1 :=
  ⟨redLobby_reachable id id, by decide,
    (create_twice id (redLobby id id) 0 1 " Blue " (redLobby_reachable id id) (by decide)).1⟩

/-! ## Exit -/

/-- C5 fails on the code: the reader loop goes on after `/exit`. Client `0` sends `/exit`
and is cut out of `clients`; its next message `/create blue` is handled all the same and
adds `blue` to `lobbies`, and its chat text is still sent to the lobby it was in. -/
theorem exit_then_create_changes_lobbies :
    (handleMessage id (redLobby id id) 0 ⟨"/exit", 7, false⟩).clients = [1] ∧
      (handleMessage id (redLobby id id) 0 ⟨"/exit", 7, false⟩).lobbies = ["red"] ∧
      (handleMessage id (handleMessage id (redLobby id id) 0 ⟨"/exit", 7, false⟩) 0
        ⟨"/create blue", 8, false⟩).lobbies = ["red", "blue"] ∧
      (handleMessage id (handleMessage id (redLobby id id) 0 ⟨"/exit", 7, false⟩) 0
        ⟨"/create blue", 8, false⟩).clients = [1] ∧
      sentTo (handleMessage id (redLobby id id) 0 ⟨"/exit", 7, false⟩)
        (handleMessage id (handleMessage id (redLobby id id) 0 ⟨"/exit", 7, false⟩) 0
          ⟨"still here", 8, false⟩) 1 = [⟨"still here", 8, false⟩] :=
  ⟨by decide, by decide, by decide, by decide, by decide⟩

/-! ## The registry invariant -/

/-- C6: in every state reached from the empty registry by accepting clients and handling
messages of accepted clients (commands, chat text, `/exit` with `removeClient`), a client
whose `lobby` is not empty has a `lobby` that is in `lobbies`. -/
theorem lobby_of_client_is_listed (tbl : Char → Char) (s : Server) (hr : Reachable tbl s)
    (c : Handle) (hc : s.lobby c ≠ "") : s.lobby c ∈ s.lobbies :=
  (inv_of_reachable hr).2.2.2.2 c hc

theorem lobby_of_client_is_listed_witness :
    Reachable id (redLobby id id) ∧ (redLobby id id).lobby 1 ≠ "" ∧
      (redLobby id id).lobby 1 ∈ (redLobby id id).lobbies :=
  ⟨redLobby_reachable id id, by decide,
    lobby_of_client_is_listed id (redLobby id id) (redLobby_reachable id id) 1 (by decide)⟩

/-! ## Disconnect -/

/-- The `/disconnect` branch for a client in a lobby, the announcement written with
`someoneLeftText`. -/
theorem cmdDisconnect_announces (tbl : Char → Char) (s : Server) (h : Handle)
    (message : String) (hc : commandOf message = "/disconnect") (hl : s.lobby h ≠ "") :
    (handleCommand tbl s h message).lobby = Function.update s.lobby h "" ∧
      (handleCommand tbl s h message).lobbies = s.lobbies ∧
      (handleCommand tbl s h message).clients = s.clients ∧
      (handleCommand tbl s h message).sent = s.sent ++ stamped s.clock
        ((h, "You have disconnected from the lobby.") ::
          (s.clients.filter (fun c => c ≠ h ∧ s.lobby c = s.lobby h)).map
            (fun c => (c, someoneLeftText (s.clients.countP
              (fun c => (handleCommand tbl s h message).lobby c = s.lobby h))))) ∧
      (sentTo s (handleCommand tbl s h message) h).map Message.Text =
        ["You have disconnected from the lobby."] ∧
      (s.clients.Nodup → ∀ c, c ≠ h →
        (sentTo s (handleCommand tbl s h message) c).map Message.Text =
          if c ∈ s.clients ∧ s.lobby c = s.lobby h then
            [someoneLeftText (s.clients.countP
              (fun c => (handleCommand tbl s h message).lobby c = s.lobby h))]
          else []) := by
  rw [handleCommand_disconnect tbl s h _ hc]
  have hN := cmdDisconnect_leave s h hl
  have hfilter : s.clients.filter (fun c => c ≠ h ∧ Function.update s.lobby h "" c = s.lobby h)
      = s.clients.filter (fun c => c ≠ h ∧ s.lobby c = s.lobby h) := by
    apply List.filter_congr
    intro c _
    by_cases hce : c = h
    · simp [hce]
    · simp [hce, Function.update_noteq hce]
  rw [hfilter] at hN
  generalize cmdDisconnect s h = s' at *
  obtain ⟨n1, n2, n3, n4, n5, n6⟩ := id hN
  have n5' : s'.lobby = Function.update s.lobby h "" := n5
  rw [n5']
  refine ⟨rfl, n4, n3, n1, ?_, ?_⟩
  · rw [@sentTo_texts s _ _ _ hN rfl h]
    simp [List.filter_cons, List.filter_map, List.filter_filter]
    intro a _ ha hna
    exact absurd ha hna
  · intro hnd c hch0
    rw [@sentTo_texts s _ _ _ hN rfl c]
    have hch : ¬ h = c := fun e => hch0 e.symm
    have h2 := filter_recipient_nodup
      (fun _ => someoneLeftText
        (s.clients.countP (fun c => Function.update s.lobby h "" c = s.lobby h)))
      (fun c => decide (c ≠ h ∧ s.lobby c = s.lobby h)) s.clients hnd c
    simp only [decide_eq_true_eq] at h2
    simp only [List.filter_cons, hch, decide_False, Bool.false_eq_true, if_false]
    simp only [hch0, ne_eq, not_false_eq_true, true_and] at h2 ⊢
    exact h2

/-- C7: a message whose command is `/disconnect`, from a client `h` whose `lobby` is a
non-empty `L`, empties the `lobby` of `h` and of nobody else, leaves `lobbies` and `clients`
alone, sends `h` the departure notification and then, in the order of `clients`, one leave
announcement per listed client other than `h` whose `lobby` is `L`. The announcement is the
text `Someone has left the lobby! :( (Now k users in here)` where `k`, in decimal, is the
number of listed clients whose `lobby` is `L` once the `lobby` of `h` is empty. When every
client is listed once, each of these clients gets exactly this one message and every other
handle but `h` nothing; `h` gets the departure notification only. -/
theorem disconnect_announces (tbl : Char → Char) (s : Server) (h : Handle)
    (message : String) (hc : commandOf message = "/disconnect") (hl : s.lobby h ≠ "") :
    (handleCommand tbl s h message).lobby = Function.update s.lobby h "" ∧
      (handleCommand tbl s h message).lobbies = s.lobbies ∧
      (handleCommand tbl s h message).clients = s.clients ∧
      (handleCommand tbl s h message).sent = s.sent ++ stamped s.clock
        ((h, "You have disconnected from the lobby.") ::
          (s.clients.filter (fun c => c ≠ h ∧ s.lobby c = s.lobby h)).map
            (fun c => (c, "Someone has left the lobby! :( (Now " ++
              toString (s.clients.countP
                (fun c => (handleCommand tbl s h message).lobby c = s.lobby h)) ++
              " users in here)"))) ∧
      (sentTo s (handleCommand tbl s h message) h).map Message.Text =
        ["You have disconnected from the lobby."] ∧
      (s.clients.Nodup → ∀ c, c ≠ h →
        (sentTo s (handleCommand tbl s h message) c).map Message.Text =
          if c ∈ s.clients ∧ s.lobby c = s.lobby h then
            ["Someone has left the lobby! :( (Now " ++
              toString (s.clients.countP
                (fun c => (handleCommand tbl s h message).lobby c = s.lobby h)) ++
              " users in here)"]
          else []) := by
  have htext : ∀ k : Nat, someoneLeftText k =
      "Someone has left the lobby! :( (Now " ++ toString k ++ " users in here)" :=
    fun _ => rfl
  have hm := cmdDisconnect_announces tbl s h message hc hl
  simp only [htext] at hm
  exact hm

/-- Clients `0` and `1` are in `red`; `0` sends `/disconnect now` and `1` is told that one
user is left. -/
theorem disconnect_announces_witness :
    commandOf "/disconnect now" = "/disconnect" ∧ (redLobby id id).lobby 0 ≠ "" ∧
      (redLobby id id).clients.Nodup ∧
      (sentTo (redLobby id id) (handleCommand id (redLobby id id) 0 "/disconnect now") 1).map
          Message.Text = ["Someone has left the lobby! :( (Now 1 users in here)"] ∧
      (sentTo (redLobby id id) (handleCommand id (redLobby id id) 0 "/disconnect now") 0).map
          Message.Text = ["You have disconnected from the lobby."] :=
  ⟨by decide, by decide, by decide,
    ((disconnect_announces id (redLobby id id) 0 "/disconnect now" (by decide)
      (by decide)).2.2.2.2.2 (by decide) 1 (by decide)).trans (by decide),
    (disconnect_announces id (redLobby id id) 0 "/disconnect now" (by decide)
      (by decide)).2.2.2.2.1⟩

/-! ## Chat text without a lobby, and the domain errors -/

theorem onlyNotified_of_notified {s s' : Server} {h : Handle} {text : String}
    (hN : Notified s s' [(h, text)]) : OnlyNotified s s' h text :=
  ⟨hN.1, hN.2.2.1, hN.2.2.2.1, hN.2.2.2.2.1⟩

theorem HasPrefix_slash_false (t : String) (ht : ∀ rest : String, t ≠ "/" ++ rest) :
    HasPrefix t "/" = false := by
  obtain ⟨l⟩ := t
  cases l with
  | nil => rfl
  | cons c l =>
    by_cases hc : c = '/'
    · exact absurd (by rw [hc]; rfl) (ht ⟨l⟩)
    · have hc2 : ¬ '/' = c := fun e => hc e.symm
      simp [HasPrefix, List.isPrefixOf, hc2]

/-- C8: when the `lobby` of `h` is empty and the text does not start with `/`, the reader
loop sends one message, the notification to join a lobby first, to `h`; no other handle
gets anything, whatever its `lobby`, and `clients`, `lobbies` and every `lobby` are
unchanged. -/
theorem chat_without_lobby (tbl : Char → Char) (s : Server) (h : Handle) (msg : Message)
    (hl : s.lobby h = "") (ht : ∀ rest : String, msg.Text ≠ "/" ++ rest) :
    OnlyNotified s (handleMessage tbl s h msg) h
        "You have not joined to any lobbies. Try /list to get lobby list." ∧
      (∀ c, c ≠ h → sentTo s (handleMessage tbl s h msg) c = []) ∧
      handleClient tbl s h [msg] = handleMessage tbl s h msg := by
  have hp := HasPrefix_slash_false msg.Text ht
  have he : handleMessage tbl s h msg = sendServerNotification s h
      "You have not joined to any lobbies. Try /list to get lobby list." := by
    simp [handleMessage, hp, hl]
  rw [he]
  refine ⟨onlyNotified_of_notified (notified_send _ _ _), ?_, ?_⟩
  · intro c hc
    have hch : ¬ h = c := fun e => hc e.symm
    simp [sentTo, sendServerNotification, hch]
  · simp [handleClient, he]

theorem chat_without_lobby_witness :
    (twoClients id).lobby 0 = "" ∧ (∀ rest : String, ("hello" : String) ≠ "/" ++ rest) ∧
      OnlyNotified (twoClients id) (handleMessage id (twoClients id) 0 ⟨"hello", 3, false⟩) 0
        "You have not joined to any lobbies. Try /list to get lobby list." :=
  ⟨by decide, fun rest e => by
      have h2 := congrArg (fun t : String => t.data.head?) e
      simp at h2,
    (chat_without_lobby id (twoClients id) 0 ⟨"hello", 3, false⟩ (by decide)
      (fun rest e => by
        have h2 := congrArg (fun t : String => t.data.head?) e
        simp at h2)).1⟩

/-- C9: every domain error of `handleCommand` sends one message, a notification to the
client that issued the command, and leaves `clients`, `lobbies` and every `lobby` as they
were: `/create` and `/join` whose argument is empty once trimmed, `/create` of a listed
name, `/join` of a name that is not listed, `/disconnect` of a client without a lobby. So
`/join blue` of a client without a lobby, when `blue` is not listed, leaves its `lobby`
empty. -/
theorem domain_errors_atomic (tbl : Char → Char) (s : Server) (h : Handle)
    (message : String) :
    (commandOf message = "/create" → lobbyArg tbl message "/create" = "" →
        OnlyNotified s (handleCommand tbl s h message) h "Please specify a lobby name.") ∧
      (commandOf message = "/join" → lobbyArg tbl message "/join" = "" →
        OnlyNotified s (handleCommand tbl s h message) h "Please specify a lobby name.") ∧
      (commandOf message = "/create" → lobbyArg tbl message "/create" ≠ "" →
        lobbyArg tbl message "/create" ∈ s.lobbies →
        OnlyNotified s (handleCommand tbl s h message) h
          "Lobby with this name already exists. Try another name or join it.") ∧
      (commandOf message = "/join" → lobbyArg tbl message "/join" ≠ "" →
        lobbyArg tbl message "/join" ∉ s.lobbies →
        OnlyNotified s (handleCommand tbl s h message) h
          "Lobby is not found. Try another or create new.") ∧
      (commandOf message = "/disconnect" → s.lobby h = "" →
        OnlyNotified s (handleCommand tbl s h message) h
          "You have not joined any lobbies yet.") ∧
      ("blue" ∉ s.lobbies → s.lobby h = "" →
        OnlyNotified s (handleCommand tbl s h "/join blue") h
          "Lobby is not found. Try another or create new." ∧
        (handleCommand tbl s h "/join blue").lobby h = "") := by
  refine ⟨?_, ?_, ?_, ?_, ?_, ?_⟩
  · intro hc he
    rw [handleCommand_create tbl s h _ hc]
    exact onlyNotified_of_notified (cmdCreate_empty tbl s h message he)
  · intro hc he
    rw [handleCommand_join tbl s h _ hc]
    exact onlyNotified_of_notified (cmdJoin_empty tbl s h message he)
  · intro hc he hex
    rw [handleCommand_create tbl s h _ hc]
    exact onlyNotified_of_notified (cmdCreate_exists tbl s h message he hex)
  · intro hc he hex
    rw [handleCommand_join tbl s h _ hc]
    exact onlyNotified_of_notified (cmdJoin_missing tbl s h message he hex)
  · intro hc he
    rw [handleCommand_disconnect tbl s h _ hc]
    exact onlyNotified_of_notified (cmdDisconnect_none s h he)
  · intro hex hl
    have harg : lobbyArg tbl "/join blue" "/join" = "blue" := rfl
    rw [handleCommand_join tbl s h _ (by decide)]
    have hN := cmdJoin_missing tbl s h "/join blue" (by rw [harg]; decide) (by rw [harg]; exact hex)
    refine ⟨onlyNotified_of_notified hN, ?_⟩
    rw [hN.2.2.2.2.1]
    exact hl

/-- Each of the error branches is taken at a concrete state. -/
theorem domain_errors_atomic_witness :
    (commandOf "/create   " = "/create" ∧ lobbyArg id "/create   " "/create" = "" ∧
        OnlyNotified (twoClients id) (handleCommand id (twoClients id) 0 "/create   ") 0
          "Please specify a lobby name.") ∧
      (commandOf "/join" = "/join" ∧ lobbyArg id "/join" "/join" = "" ∧
        OnlyNotified (twoClients id) (handleCommand id (twoClients id) 0 "/join") 0
          "Please specify a lobby name.") ∧
      (commandOf "/create RED" = "/create" ∧ lobbyArg id "/create RED" "/create" ≠ "" ∧
        lobbyArg id "/create RED" "/create" ∈ (redLobby id id).lobbies ∧
        OnlyNotified (redLobby id id) (handleCommand id (redLobby id id) 1 "/create RED") 1
          "Lobby with this name already exists. Try another name or join it.") ∧
      (commandOf "/join green" = "/join" ∧ lobbyArg id "/join green" "/join" ≠ "" ∧
        lobbyArg id "/join green" "/join" ∉ (redLobby id id).lobbies ∧
        OnlyNotified (redLobby id id) (handleCommand id (redLobby id id) 1 "/join green") 1
          "Lobby is not found. Try another or create new.") ∧
      (commandOf "/disconnect" = "/disconnect" ∧ (twoClients id).lobby 1 = "" ∧
        OnlyNotified (twoClients id) (handleCommand id (twoClients id) 1 "/disconnect") 1
          "You have not joined any lobbies yet.") ∧
      ("blue" ∉ (twoClients id).lobbies ∧ (twoClients id).lobby 0 = "" ∧
        OnlyNotified (twoClients id) (handleCommand id (twoClients id) 0 "/join blue") 0
          "Lobby is not found. Try another or create new." ∧
        (handleCommand id (twoClients id) 0 "/join blue").lobby 0 = "") :=
  ⟨⟨by decide, by decide,
      (domain_errors_atomic id (twoClients id) 0 "/create   ").1 (by decide) (by decide)⟩,
    ⟨by decide, by decide,
      (domain_errors_atomic id (twoClients id) 0 "/join").2.1 (by decide) (by decide)⟩,
    ⟨by decide, by decide, by decide,
      (domain_errors_atomic id (redLobby id id) 1 "/create RED").2.2.1
        (by decide) (by decide) (by decide)⟩,
    ⟨by decide, by decide, by decide,
      (domain_errors_atomic id (redLobby id id) 1 "/join green").2.2.2.1
        (by decide) (by decide) (by decide)⟩,
    ⟨by decide, by decide,
      (domain_errors_atomic id (twoClients id) 1 "/disconnect").2.2.2.2.1
        (by decide) (by decide)⟩,
    ⟨by decide, by decide,
      (domain_errors_atomic id (twoClients id) 0 "/join blue").2.2.2.2.2
        (by decide) (by decide)⟩⟩

/-! ## The mutex -/

/-- C10 fails on the code: `/create` reads and writes `lobbies` and never locks the mutex;
`/join` reads `lobbies`, counts the members and writes the `lobby` before `mutex.Lock()`,
so that only the announcement loop runs under the lock; `/disconnect` counts before the
lock; `/list` never locks. `broadcastMsg` and `removeClient` do hold the lock for all they
do. -/
theorem handleCommand_breaks_lockDiscipline :
    handleCommandAccesses id (twoClients id) 0 "/create red" =
        [Access.readLobbies, Access.readLobbies, Access.writeLobbies, Access.writeLobby 0,
          Access.encode 0] ∧
      lockDiscipline false (handleCommandAccesses id (twoClients id) 0 "/create red") = false ∧
      handleCommandAccesses id (redCreated id id) 1 "/join red" =
        [Access.readLobbies, Access.readClients, Access.readLobby 0, Access.readLobby 1,
          Access.writeLobby 1, Access.encode 1, Access.encode 1, Access.lock,
          Access.readClients, Access.readLobby 0, Access.readLobby 1, Access.encode 0,
          Access.unlock] ∧
      lockDiscipline false (handleCommandAccesses id (redCreated id id) 1 "/join red") = false ∧
      lockDiscipline false (handleCommandAccesses id (redLobby id id) 1 "/disconnect") = false ∧
      lockDiscipline false (handleCommandAccesses id (redLobby id id) 1 "/list") = false ∧
      lockDiscipline false (broadcastMsgAccesses (redLobby id id) 0) = true ∧
      lockDiscipline false (removeClientAccesses (redLobby id id) 0) = true :=
  ⟨by decide, by decide, by decide, by decide, by decide, by decide, by decide, by decide⟩

end GoTcpChat
